import Mathlib

/-!
Shallow embedding of `modulation.py` (class `DigitalModulation`).

Numeric model: Python floats are embedded as exact rationals (`ℚ`); the
transcendental sample values `a*sin(2π f t + φ)` are represented by a small
symbolic descriptor (`RSample` / `CSample`) computed exactly as the code
computes its coefficients, with a separate real/complex interpretation
function.  Fallible calls (`ZeroDivisionError` from `// len(data_vec)`,
`ValueError` from `reshape`) are embedded with `Except`.
-/

namespace ModulationDemo

/-- Decide rational equality through the `num`/`den` projections (the
default derived instance reduces large numerals one unit at a time). -/
instance : DecidableEq ℚ := fun a b =>
  decidable_of_iff (a.num = b.num ∧ a.den = b.den)
    ⟨fun h => Rat.ext h.1 h.2, fun h => by subst h; exact ⟨rfl, rfl⟩⟩

/-- The instance state of `DigitalModulation` after `__init__`:
fields `carrier_freq_hz`, `demo_duration_s`, `_oversampling`,
`_sample_freq_hz`, `_sample_period_s`, `start_phase_rad`, and the length of
`sample_points_s` (the `arange(0, demo_duration_s, _sample_period_s)` grid,
whose k-th entry is `k * sample_period_s`). -/
structure DigitalModulation where
  carrier_freq_hz : ℚ
  demo_duration_s : ℚ
  oversampling : ℕ
  sample_freq_hz : ℚ
  sample_period_s : ℚ
  start_phase_rad : ℚ
  num_sample_points : ℕ
deriving DecidableEq

/-- Embedding of `DigitalModulation.__init__(carrier_freq_hz, demo_duration_s)`, lines 5-22.
Note the source assigns the literals `1e6` / `8e-6` to the
`carrier_freq_hz` / `demo_duration_s` fields (ignoring the constructor
arguments), while `_sample_freq_hz` and the `arange` grid use the arguments.
`len(arange(0, d, step)) = ceil(d / step)` for `step > 0`. -/
def DigitalModulation.init (carrier_freq_hz : ℚ) (demo_duration_s : ℚ) :
    DigitalModulation :=
  let oversampling : ℕ := 32
  let sample_freq_hz : ℚ := carrier_freq_hz * (oversampling : ℚ)
  let sample_period_s : ℚ := 1 / sample_freq_hz
  { carrier_freq_hz := 1000000
    demo_duration_s := 8 / 1000000
    oversampling := oversampling
    sample_freq_hz := sample_freq_hz
    sample_period_s := sample_period_s
    start_phase_rad := 0
    num_sample_points := (⌈demo_duration_s / sample_period_s⌉).toNat }

/-- The default instance `DigitalModulation()` (both arguments at their
default values `1e6` and `8e-6`). -/
def defaultMod : DigitalModulation :=
  DigitalModulation.init 1000000 (8 / 1000000)

/-- Symbolic form of one real-valued output sample:
`amp * sin(2*π*freq*t + phase0 + phasePi*π)`.
A zero-initialized sample (`zeros_like`) is `⟨0,0,0,0,0⟩`. -/
@[ext]
structure RSample where
  amp : ℚ
  freq : ℚ
  t : ℚ
  phase0 : ℚ
  phasePi : ℚ
deriving DecidableEq

/-- Real value of a symbolic sample. -/
noncomputable def RSample.interp (s : RSample) : ℝ :=
  (s.amp : ℝ) *
    Real.sin (2 * Real.pi * (s.freq : ℝ) * (s.t : ℝ) + (s.phase0 : ℝ) +
      (s.phasePi : ℝ) * Real.pi)

/-- The zero-initialized real sample (`zeros_like(self.sample_points_s)`). -/
def zeroR : RSample := ⟨0, 0, 0, 0, 0⟩

/-- Symbolic form of one complex-valued QAM output sample:
`i*cos(2*π*freq*t) + 1j*q*sin(2*π*freq*t)`. -/
@[ext]
structure CSample where
  i : ℤ
  q : ℤ
  freq : ℚ
  t : ℚ
deriving DecidableEq

/-- Complex value of a symbolic QAM sample. -/
noncomputable def CSample.interp (s : CSample) : ℂ :=
  (s.i : ℂ) * Complex.cos ((2 * Real.pi * (s.freq : ℝ) * (s.t : ℝ) : ℝ) : ℂ) +
    Complex.I * (s.q : ℂ) *
      Complex.sin ((2 * Real.pi * (s.freq : ℝ) * (s.t : ℝ) : ℝ) : ℂ)

/-- The zero-initialized complex sample
(`zeros_like(self.sample_points_s, dtype=complex)`). -/
def zeroC : CSample := ⟨0, 0, 0, 0⟩

/-- Little-endian packing of a bit list: bit at position `j` contributes
`2^j`. -/
def packLE : List Bool → ℕ
  | [] => 0
  | b :: rest => b.toNat + 2 * packLE rest

/-- Embedding of `packbits(data, bitorder='little')[0]`: numpy packs the flattened bits
into bytes and `[0]` takes the first byte, i.e. the little-endian packing of
the first (at most) 8 bits. -/
def packbitsLittle0 (g : List Bool) : ℕ := packLE (g.take 8)

/-- Embedding of `reshape(data_vec_bool, (-1, B))`: row `i` of the reshaped array is
`bits[i*B : (i+1)*B]`; the reshape is total only when `B` divides
`len(bits)` (checked by the callers). -/
def reshapeRows (bits : List Bool) (B : ℕ) : List (List Bool) :=
  (List.range (bits.length / B)).map (fun i => (bits.drop (i * B)).take B)

/-- Lines 49-50 (and the identical lines 94-95, 143-144, 192-193):
`periods_per_bit = (self.carrier_freq_hz * self.demo_duration_s) // len(data_vec)`
(Python float floor division). -/
def periods_per_bit (cfg : DigitalModulation) (numBits : ℕ) : ℤ :=
  ⌊cfg.carrier_freq_hz * cfg.demo_duration_s / (numBits : ℚ)⌋

/-- Line 52 (and 97, 146, 195):
`mod_samples_per_bit = int(periods_per_bit * self._oversampling)`. -/
def mod_samples_per_bit (cfg : DigitalModulation) (numBits : ℕ) : ℤ :=
  periods_per_bit cfg numBits * (cfg.oversampling : ℤ)

/-- One slice assignment
`modulated_values_v[start:stop] = f(sample_points[start:stop])`:
the requested index range together with the per-index sample value. -/
structure Seg (α : Type) where
  start : ℕ
  stop : ℤ
  f : ℕ → α

/-- Apply one slice assignment to the waveform-so-far. -/
def writeSeg {α : Type} (w : ℕ → α) (s : Seg α) : ℕ → α :=
  fun k => if (s.start : ℤ) ≤ (k : ℤ) ∧ (k : ℤ) < s.stop then s.f k else w k

/-- The loop over symbols: successive slice assignments into the
zero-initialized waveform, later writes overwriting earlier ones. -/
def applySegs {α : Type} (z : α) (segs : List (Seg α)) : ℕ → α :=
  segs.foldl writeSeg (fun _ => z)

/-- The two error classes the modulation calls can raise:
`ZeroDivisionError` from `// len(data_vec)` when the bit vector is empty,
and `ValueError` from `reshape` when the length is not a multiple of the
row size. -/
inductive PyError where
  | zeroDivision
  | valueError
deriving DecidableEq

/-- Lines 64-65: `modulated_value` is the numpy `uint8` scalar returned by
`packbits(...)[0]`, so `modulated_value + 1` is `uint8` arithmetic and
wraps at 256 (`255 + 1 = 0`);
`amp_value = (modulated_value + 1) / amplitude_divider` with
`amplitude_divider = 2**bits_per_symbol_log2`. -/
def askAmp (B : ℕ) (v : ℕ) : ℚ := (((v + 1) % 256 : ℕ) : ℚ) / 2 ^ B

/-- The per-symbol slice assignments of `get_ask_mod` (lines 63-70):
symbol `idx` writes
`amp * sin(2π f_c t + φ0)` to `[idx*oversampling, idx*oversampling + mod_samples_per_bit)`. -/
def ask_segs (cfg : DigitalModulation) (bits : List Bool) (B : ℕ) :
    List (Seg RSample) :=
  (reshapeRows bits B).enum.map (fun p =>
    let modulated_value := packbitsLittle0 p.2
    let amp_value := askAmp B modulated_value
    let start_sample_idx := p.1 * cfg.oversampling
    { start := start_sample_idx
      stop := (start_sample_idx : ℤ) + mod_samples_per_bit cfg bits.length
      f := fun k =>
        { amp := amp_value, freq := cfg.carrier_freq_hz,
          t := (k : ℚ) * cfg.sample_period_s,
          phase0 := cfg.start_phase_rad, phasePi := 0 } })

/-- Embedding of `get_ask_mod(data_vec, bits_per_symbol_log2)` (lines 30-72):
`ZeroDivisionError` on an empty bit vector (line 50), `ValueError` from
`reshape` when the length is not a multiple of `B` (line 60), otherwise the
length-`N` waveform produced by the write loop. -/
def get_ask_mod (cfg : DigitalModulation) (data_vec : List Bool)
    (bits_per_symbol_log2 : ℕ) : Except PyError (List RSample) :=
  if data_vec.length = 0 then .error .zeroDivision
  else if data_vec.length % bits_per_symbol_log2 ≠ 0 then .error .valueError
  else .ok ((List.range cfg.num_sample_points).map
    (applySegs zeroR (ask_segs cfg data_vec bits_per_symbol_log2)))

/-- The per-symbol slice assignments of `get_psk_mod` (lines 110-119):
symbol `idx` writes `sin(2π f_c t + φ0 + 2π (v+1)/2^B)`. -/
def psk_segs (cfg : DigitalModulation) (bits : List Bool) (B : ℕ) :
    List (Seg RSample) :=
  (reshapeRows bits B).enum.map (fun p =>
    let modulated_value := packbitsLittle0 p.2 + 1
    let start_sample_idx := p.1 * cfg.oversampling
    { start := start_sample_idx
      stop := (start_sample_idx : ℤ) + mod_samples_per_bit cfg bits.length
      f := fun k =>
        { amp := 1, freq := cfg.carrier_freq_hz,
          t := (k : ℚ) * cfg.sample_period_s,
          phase0 := cfg.start_phase_rad,
          phasePi := 2 * (modulated_value : ℚ) / 2 ^ B } })

/-- Embedding of `get_psk_mod(data_vec, bits_per_symbol_log2)` (lines 74-121). -/
def get_psk_mod (cfg : DigitalModulation) (data_vec : List Bool)
    (bits_per_symbol_log2 : ℕ) : Except PyError (List RSample) :=
  if data_vec.length = 0 then .error .zeroDivision
  else if data_vec.length % bits_per_symbol_log2 ≠ 0 then .error .valueError
  else .ok ((List.range cfg.num_sample_points).map
    (applySegs zeroR (psk_segs cfg data_vec bits_per_symbol_log2)))

/-- Lines 152, 159, 163-164: the per-symbol frequency
`frequency_min + v * frequency_span / freq_span_divider` with
`frequency_min = carrier_freq_hz - frequency_span/2` and
`freq_span_divider = 2**B - 1`. -/
def fskFreq (cfg : DigitalModulation) (frequency_span : ℚ) (B : ℕ) (v : ℕ) :
    ℚ :=
  (cfg.carrier_freq_hz - frequency_span / 2) +
    (v : ℚ) * frequency_span / ((2 : ℚ) ^ B - 1)

/-- The per-symbol slice assignments of `get_fsk_mod` (lines 161-171):
symbol `idx` writes `sin(2π f_v t + φ0)` with the per-symbol frequency. -/
def fsk_segs (cfg : DigitalModulation) (bits : List Bool)
    (frequency_span : ℚ) (B : ℕ) : List (Seg RSample) :=
  (reshapeRows bits B).enum.map (fun p =>
    let modulated_value := packbitsLittle0 p.2
    let start_sample_idx := p.1 * cfg.oversampling
    { start := start_sample_idx
      stop := (start_sample_idx : ℤ) + mod_samples_per_bit cfg bits.length
      f := fun k =>
        { amp := 1, freq := fskFreq cfg frequency_span B modulated_value,
          t := (k : ℚ) * cfg.sample_period_s,
          phase0 := cfg.start_phase_rad, phasePi := 0 } })

/-- Embedding of `get_fsk_mod(data_vec, frequency_span, bits_per_symbol_log2)`
(lines 123-173). -/
def get_fsk_mod (cfg : DigitalModulation) (data_vec : List Bool)
    (frequency_span : ℚ) (bits_per_symbol_log2 : ℕ) :
    Except PyError (List RSample) :=
  if data_vec.length = 0 then .error .zeroDivision
  else if data_vec.length % bits_per_symbol_log2 ≠ 0 then .error .valueError
  else .ok ((List.range cfg.num_sample_points).map
    (applySegs zeroR (fsk_segs cfg data_vec frequency_span
      bits_per_symbol_log2)))

/-- The branch chain of `get_qam_modulation_mapping` (lines 217-280):
`some` on the branches that overwrite `ret_val`, `none` when no branch
fires (so that the initializer `ret_val = array((0, 0))` survives). -/
def qam_mapping_core (value : ℕ) (qam_idx : ℕ) : Option (ℤ × ℤ) :=
  if qam_idx = 4 then
    if value = 0 then some (1, 1)
    else if value = 1 then some (1, -1)
    else if value = 2 then some (-1, 1)
    else if value = 3 then some (-1, -1)
    else none
  else if qam_idx = 8 then
    if value = 0 then some (3, 0)
    else if value = 1 then some (1, 1)
    else if value = 2 then some (-1, 1)
    else if value = 3 then some (0, 3)
    else if value = 4 then some (1, -1)
    else if value = 5 then some (0, -3)
    else if value = 6 then some (-3, 0)
    else if value = 7 then some (-1, -1)
    else none
  else if qam_idx = 16 then
    if value = 0 then some (1, 1)
    else if value = 1 then some (3, 1)
    else if value = 2 then some (1, 3)
    else if value = 3 then some (3, 3)
    else if value = 4 then some (1, -1)
    else if value = 5 then some (3, -1)
    else if value = 6 then some (1, -3)
    else if value = 7 then some (3, -3)
    else if value = 8 then some (-1, 1)
    else if value = 9 then some (-3, 1)
    else if value = 10 then some (-1, 3)
    else if value = 11 then some (-3, 3)
    else if value = 12 then some (-1, -1)
    else if value = 13 then some (-3, -1)
    else if value = 14 then some (-1, -3)
    else if value = 15 then some (-3, -3)
    else none
  else none

/-- Embedding of `get_qam_modulation_mapping(value, qam_idx)` (lines 217-280): the
matched branch value, or the `(0, 0)` initializer when no branch fires. -/
def get_qam_modulation_mapping (value : ℕ) (qam_idx : ℕ) : ℤ × ℤ :=
  (qam_mapping_core value qam_idx).getD (0, 0)

/-- The row size of `reshape(data_vec_bool, (-1, 2, bits_per_symbol_log2//2))`
(line 203): each symbol consumes `2 * (B // 2)` bits. -/
def qamChunk (B : ℕ) : ℕ := 2 * (B / 2)

/-- Line 206: the looked-up value `packbits(data, bitorder='little')[0] + 1`
(numpy flattens the `2 × (B//2)` block before packing). -/
def qam_symbol_value (g : List Bool) : ℕ := packbitsLittle0 g + 1

/-- The per-symbol slice assignments of `get_qam_mod` (lines 205-213):
symbol `idx` writes `i*cos(2π f_c t) + 1j*q*sin(2π f_c t)` where `(i, q)`
is the constellation lookup of `packed + 1`. -/
def qam_segs (cfg : DigitalModulation) (bits : List Bool) (B : ℕ) :
    List (Seg CSample) :=
  (reshapeRows bits (qamChunk B)).enum.map (fun p =>
    let modulated_value := qam_symbol_value p.2
    let iq := get_qam_modulation_mapping modulated_value (2 ^ B)
    let start_sample_idx := p.1 * cfg.oversampling
    { start := start_sample_idx
      stop := (start_sample_idx : ℤ) + mod_samples_per_bit cfg bits.length
      f := fun k =>
        { i := iq.1, q := iq.2, freq := cfg.carrier_freq_hz,
          t := (k : ℚ) * cfg.sample_period_s } })

/-- Embedding of `get_qam_mod(data_vec, bits_per_symbol_log2)` (lines 175-215). -/
def get_qam_mod (cfg : DigitalModulation) (data_vec : List Bool)
    (bits_per_symbol_log2 : ℕ) : Except PyError (List CSample) :=
  if data_vec.length = 0 then .error .zeroDivision
  else if data_vec.length % qamChunk bits_per_symbol_log2 ≠ 0 then
    .error .valueError
  else .ok ((List.range cfg.num_sample_points).map
    (applySegs zeroC (qam_segs cfg data_vec bits_per_symbol_log2)))

/-- Embedding of `get_carrier()` (lines 24-28): `sin(2π f_c t)` at every grid point
(no start phase). -/
def get_carrier (cfg : DigitalModulation) : List RSample :=
  (List.range cfg.num_sample_points).map (fun (k : ℕ) =>
    { amp := 1, freq := cfg.carrier_freq_hz,
      t := (k : ℚ) * cfg.sample_period_s, phase0 := 0, phasePi := 0 })

/-- The claim C1's per-symbol cycle count, following the spec's words:
`floor((carrier_freq_hz * duration_s) / num_symbols)` with
`num_symbols = len(bits)/B`. -/
def spec_periods_per_symbol (cfg : DigitalModulation) (numBits B : ℕ) : ℤ :=
  ⌊cfg.carrier_freq_hz * cfg.demo_duration_s / ((numBits / B : ℕ) : ℚ)⌋

end ModulationDemo

namespace ModulationDemo

/-! ## Helper lemmas -/

/-- Indexing the enumerated-and-mapped rows of a rectangular reshape. -/
theorem segs_map_getElem {β : Type} (n : ℕ) (row : ℕ → List Bool)
    (g : ℕ × List Bool → β) (i : ℕ) (hi : i < n) :
    (((List.range n).map row).enum.map g)[i]? = some (g (i, row i)) := by
  simp [List.getElem?_map, List.getElem?_enum, List.getElem?_range hi]

/-- The `i`-th slice assignment performed by `get_ask_mod`. -/
theorem ask_segs_getElem (cfg : DigitalModulation) (bits : List Bool)
    (B i : ℕ) (hi : i < bits.length / B) :
    (ask_segs cfg bits B)[i]? = some
      { start := i * cfg.oversampling
        stop := ((i * cfg.oversampling : ℕ) : ℤ) +
          mod_samples_per_bit cfg bits.length
        f := fun k =>
          { amp := askAmp B (packbitsLittle0 ((bits.drop (i * B)).take B)),
            freq := cfg.carrier_freq_hz,
            t := (k : ℚ) * cfg.sample_period_s,
            phase0 := cfg.start_phase_rad, phasePi := 0 } } := by
  unfold ask_segs reshapeRows
  rw [segs_map_getElem _ _ _ i hi]

/-- The `i`-th slice assignment performed by `get_psk_mod`. -/
theorem psk_segs_getElem (cfg : DigitalModulation) (bits : List Bool)
    (B i : ℕ) (hi : i < bits.length / B) :
    (psk_segs cfg bits B)[i]? = some
      { start := i * cfg.oversampling
        stop := ((i * cfg.oversampling : ℕ) : ℤ) +
          mod_samples_per_bit cfg bits.length
        f := fun k =>
          { amp := 1, freq := cfg.carrier_freq_hz,
            t := (k : ℚ) * cfg.sample_period_s,
            phase0 := cfg.start_phase_rad,
            phasePi := 2 * ((packbitsLittle0 ((bits.drop (i * B)).take B)
              + 1 : ℕ) : ℚ) / 2 ^ B } } := by
  unfold psk_segs reshapeRows
  rw [segs_map_getElem _ _ _ i hi]

/-- The `i`-th slice assignment performed by `get_fsk_mod`. -/
theorem fsk_segs_getElem (cfg : DigitalModulation) (bits : List Bool)
    (span : ℚ) (B i : ℕ) (hi : i < bits.length / B) :
    (fsk_segs cfg bits span B)[i]? = some
      { start := i * cfg.oversampling
        stop := ((i * cfg.oversampling : ℕ) : ℤ) +
          mod_samples_per_bit cfg bits.length
        f := fun k =>
          { amp := 1,
            freq := fskFreq cfg span B
              (packbitsLittle0 ((bits.drop (i * B)).take B)),
            t := (k : ℚ) * cfg.sample_period_s,
            phase0 := cfg.start_phase_rad, phasePi := 0 } } := by
  unfold fsk_segs reshapeRows
  rw [segs_map_getElem _ _ _ i hi]

/-- The `i`-th slice assignment performed by `get_qam_mod`. -/
theorem qam_segs_getElem (cfg : DigitalModulation) (bits : List Bool)
    (B i : ℕ) (hi : i < bits.length / qamChunk B) :
    (qam_segs cfg bits B)[i]? = some
      { start := i * cfg.oversampling
        stop := ((i * cfg.oversampling : ℕ) : ℤ) +
          mod_samples_per_bit cfg bits.length
        f := fun k =>
          { i := (get_qam_modulation_mapping
              (qam_symbol_value ((bits.drop (i * qamChunk B)).take (qamChunk B)))
              (2 ^ B)).1,
            q := (get_qam_modulation_mapping
              (qam_symbol_value ((bits.drop (i * qamChunk B)).take (qamChunk B)))
              (2 ^ B)).2,
            freq := cfg.carrier_freq_hz,
            t := (k : ℚ) * cfg.sample_period_s } } := by
  unfold qam_segs reshapeRows
  rw [segs_map_getElem _ _ _ i hi]

/-- Index `k` of a successful `get_psk_mod` call is the value left at
index `k` by the write loop. -/
theorem psk_output_getElem (cfg : DigitalModulation) (bits : List Bool)
    (B k : ℕ) (hk : k < cfg.num_sample_points) (h0 : bits.length ≠ 0)
    (hB : bits.length % B = 0) :
    (get_psk_mod cfg bits B).toOption.bind (fun w => w[k]?) =
      some (applySegs zeroR (psk_segs cfg bits B) k) := by
  simp [get_psk_mod, h0, hB, Except.toOption, List.getElem?_map,
    List.getElem?_range hk]

/-- A symbolic sample with amplitude coefficient 1 has real value of
absolute value at most 1. -/
theorem interp_abs_le_one (s : RSample) (h : s.amp = 1) :
    |RSample.interp s| ≤ 1 := by
  unfold RSample.interp
  rw [h]
  simp only [Rat.cast_one, one_mul]
  exact abs_le.mpr ⟨Real.neg_one_le_sin _, Real.sin_le_one _⟩

end ModulationDemo

namespace ModulationDemo

/-! ## Claim theorems -/

/-- C1 (amended): for every modulation call, the per-symbol cycle count is
`floor((carrier_freq_hz * duration_s) / len(bits))` — the divisor is the
total number of bits, not the number of symbols — and symbol `idx`'s slice
assignment starts at output sample index `idx * oversampling` and requests
exactly `cycle_count * oversampling` samples. -/
theorem timing_segments_amended (cfg : DigitalModulation) (bits : List Bool)
    (span : ℚ) (B i : ℕ) (hiA : i < bits.length / B)
    (hiQ : i < bits.length / qamChunk B) :
    periods_per_bit cfg bits.length =
      ⌊cfg.carrier_freq_hz * cfg.demo_duration_s / (bits.length : ℚ)⌋ ∧
    (ask_segs cfg bits B).length = bits.length / B ∧
    (qam_segs cfg bits B).length = bits.length / qamChunk B ∧
    Option.map Seg.start (ask_segs cfg bits B)[i]? =
      some (i * cfg.oversampling) ∧
    Option.map Seg.stop (ask_segs cfg bits B)[i]? =
      some (((i * cfg.oversampling : ℕ) : ℤ) +
        ⌊cfg.carrier_freq_hz * cfg.demo_duration_s / (bits.length : ℚ)⌋ *
          (cfg.oversampling : ℤ)) ∧
    Option.map Seg.start (psk_segs cfg bits B)[i]? =
      some (i * cfg.oversampling) ∧
    Option.map Seg.stop (psk_segs cfg bits B)[i]? =
      some (((i * cfg.oversampling : ℕ) : ℤ) +
        ⌊cfg.carrier_freq_hz * cfg.demo_duration_s / (bits.length : ℚ)⌋ *
          (cfg.oversampling : ℤ)) ∧
    Option.map Seg.start (fsk_segs cfg bits span B)[i]? =
      some (i * cfg.oversampling) ∧
    Option.map Seg.stop (fsk_segs cfg bits span B)[i]? =
      some (((i * cfg.oversampling : ℕ) : ℤ) +
        ⌊cfg.carrier_freq_hz * cfg.demo_duration_s / (bits.length : ℚ)⌋ *
          (cfg.oversampling : ℤ)) ∧
    Option.map Seg.start (qam_segs cfg bits B)[i]? =
      some (i * cfg.oversampling) ∧
    Option.map Seg.stop (qam_segs cfg bits B)[i]? =
      some (((i * cfg.oversampling : ℕ) : ℤ) +
        ⌊cfg.carrier_freq_hz * cfg.demo_duration_s / (bits.length : ℚ)⌋ *
          (cfg.oversampling : ℤ)) := by
  refine ⟨rfl, ?_, ?_, ?_, ?_, ?_, ?_, ?_, ?_, ?_, ?_⟩
  · simp [ask_segs, reshapeRows]
  · simp [qam_segs, reshapeRows]
  · rw [ask_segs_getElem cfg bits B i hiA]; rfl
  · rw [ask_segs_getElem cfg bits B i hiA]; rfl
  · rw [psk_segs_getElem cfg bits B i hiA]; rfl
  · rw [psk_segs_getElem cfg bits B i hiA]; rfl
  · rw [fsk_segs_getElem cfg bits span B i hiA]; rfl
  · rw [fsk_segs_getElem cfg bits span B i hiA]; rfl
  · rw [qam_segs_getElem cfg bits B i hiQ]; rfl
  · rw [qam_segs_getElem cfg bits B i hiQ]; rfl

/-- C1 witness: the amended timing at the default configuration,
`bits = [1,0,1,1]`, `B = 2`, symbol index 1. -/
theorem timing_segments_amended_witness :
    (1 < [true, false, true, true].length / 2 ∧
      1 < [true, false, true, true].length / qamChunk 2) ∧
    Option.map Seg.start (ask_segs defaultMod [true, false, true, true] 2)[1]? =
      some (1 * defaultMod.oversampling) :=
  ⟨⟨by decide, by decide⟩,
    (timing_segments_amended defaultMod [true, false, true, true] 1000 2 1
      (by decide) (by decide)).2.2.2.1⟩

/-- C1 counterexample: the claim's divisor (`num_symbols = len(bits)/B`) is
wrong for `B = 2`: at the default configuration with 4 bits the code's
cycle count is `floor(8/4) = 2`, not the claimed `floor(8/2) = 4`, and the
first ASK segment stops at sample 64, not `4 * 32 = 128`. -/
theorem timing_divisor_cex :
    periods_per_bit defaultMod 4 = 2 ∧
    spec_periods_per_symbol defaultMod 4 2 = 4 ∧
    periods_per_bit defaultMod 4 ≠ spec_periods_per_symbol defaultMod 4 2 ∧
    Option.map Seg.stop
      (ask_segs defaultMod [false, false, false, false] 2)[0]? = some 64 ∧
    (64 : ℤ) ≠ spec_periods_per_symbol defaultMod 4 2 * 32 := by
  refine ⟨?_, ?_, ?_, ?_, ?_⟩ <;>
    exact of_decide_eq_true (by with_unfolding_all rfl)

/-- C2: the constructor hardcodes `self.carrier_freq_hz = 1e6` (ignoring its
argument) while `_sample_freq_hz` is computed from the argument, so an
instance built with `carrier_freq_hz = 2e6` violates
`sample_freq_hz = carrier_freq_hz * oversampling`
(`_sample_period_s = 1/_sample_freq_hz` does hold). -/
theorem init_invariant_bug :
    (DigitalModulation.init 2000000 (8 / 1000000)).carrier_freq_hz
      = 1000000 ∧
    (DigitalModulation.init 2000000 (8 / 1000000)).sample_freq_hz
      = 64000000 ∧
    (DigitalModulation.init 2000000 (8 / 1000000)).sample_freq_hz ≠
      (DigitalModulation.init 2000000 (8 / 1000000)).carrier_freq_hz *
        ((DigitalModulation.init 2000000 (8 / 1000000)).oversampling : ℚ) ∧
    (DigitalModulation.init 2000000 (8 / 1000000)).sample_period_s =
      1 / (DigitalModulation.init 2000000 (8 / 1000000)).sample_freq_hz := by
  refine ⟨?_, ?_, ?_, ?_⟩ <;> norm_num [DigitalModulation.init]

end ModulationDemo

namespace ModulationDemo

/-- C3 counterexample: the valid 4-QAM input `[1,1]` (length divisible by
the symbol width, bits 0/1) packs to 3, is incremented to `v = 4`, and
`ConstellationTable(4, 4)` matches no branch: the call succeeds and the
symbol is synthesized from the `(0,0)` fallback. -/
theorem qam_fallback_cex :
    (get_qam_mod defaultMod [true, true] 2).toOption.isSome = true ∧
    qam_symbol_value [true, true] = 4 ∧
    qam_mapping_core 4 (2 ^ 2) = none ∧
    get_qam_modulation_mapping 4 (2 ^ 2) = (0, 0) ∧
    Option.map (fun s => (s.f 0).i) (qam_segs defaultMod [true, true] 2)[0]? =
      some 0 ∧
    Option.map (fun s => (s.f 0).q) (qam_segs defaultMod [true, true] 2)[0]? =
      some 0 :=
  of_decide_eq_true (by with_unfolding_all rfl)

/-- C3 (amended): for the constellation sizes that have tables
(`B ∈ {2,4}`, i.e. `M ∈ {4,16}`), the looked-up value `v = packed+1` ranges
over `[1, 2^B]`; every `v < 2^B` is a recognized key, while `v = 2^B`
(the all-ones bit group) is unrecognized and reaches the `(0,0)` fallback —
the fallback is reachable for valid inputs. -/
theorem qam_mapping_keys_amended (B v : ℕ) (hB : B = 2 ∨ B = 4)
    (h1 : 1 ≤ v) (h2 : v < 2 ^ B) :
    (qam_mapping_core v (2 ^ B)).isSome = true ∧
    qam_mapping_core (2 ^ B) (2 ^ B) = none := by
  constructor
  · rcases hB with h | h <;> subst h <;> norm_num at h2 <;>
      interval_cases v <;> decide
  · rcases hB with h | h <;> subst h <;> decide

/-- C3 witness: `v = 3` is recognized for 4-QAM, `v = 4` is not. -/
theorem qam_mapping_keys_amended_witness :
    ((2 : ℕ) = 2 ∨ (2 : ℕ) = 4) ∧ 1 ≤ 3 ∧ 3 < 2 ^ 2 ∧
    ((qam_mapping_core 3 (2 ^ 2)).isSome = true ∧
      qam_mapping_core (2 ^ 2) (2 ^ 2) = none) :=
  ⟨Or.inl rfl, by decide, by decide,
    qam_mapping_keys_amended 2 3 (Or.inl rfl) (by decide) (by decide)⟩

/-- C4 counterexample: for the valid PSK call `psk([0], B=1)` at the default
configuration, sample 0 lies in symbol 0's active range `[0, 256)` and its
value is `sin(2π·f·0 + 0 + 2π·1/2) = sin(π) = 0`, whose absolute value is
0, not 1. -/
theorem psk_envelope_cex :
    (get_psk_mod defaultMod [false] 1).toOption.bind (fun w => w[0]?) =
      some { amp := 1, freq := 1000000, t := 0, phase0 := 0, phasePi := 1 } ∧
    Option.map Seg.start (psk_segs defaultMod [false] 1)[0]? = some 0 ∧
    Option.map Seg.stop (psk_segs defaultMod [false] 1)[0]? = some 256 ∧
    |RSample.interp
      { amp := 1, freq := 1000000, t := 0, phase0 := 0, phasePi := 1 }| ≠ 1 := by
  refine ⟨?_, ?_, ?_, ?_⟩
  · rw [psk_output_getElem defaultMod [false] 1 0
      (of_decide_eq_true (by with_unfolding_all rfl)) (by decide) (by decide)]
    have h : applySegs zeroR (psk_segs defaultMod [false] 1) 0 =
        { amp := 1, freq := 1000000, t := 0, phase0 := 0, phasePi := 1 } :=
      RSample.ext (of_decide_eq_true (by with_unfolding_all rfl))
        (of_decide_eq_true (by with_unfolding_all rfl))
        (of_decide_eq_true (by with_unfolding_all rfl))
        (of_decide_eq_true (by with_unfolding_all rfl))
        (of_decide_eq_true (by with_unfolding_all rfl))
    rw [h]
  · exact of_decide_eq_true (by with_unfolding_all rfl)
  · exact of_decide_eq_true (by with_unfolding_all rfl)
  · simp [RSample.interp, Real.sin_pi]

/-- C4 (amended): every PSK symbol is synthesized with the constant
amplitude multiplier 1 regardless of the symbol value — the segment sample
is exactly `sin(2π f t + φ)` — so every sample in a symbol's active range
has absolute value at most 1 (but not in general equal to 1). -/
theorem psk_unit_amplitude_amended (cfg : DigitalModulation)
    (bits : List Bool) (B i k : ℕ) (hi : i < bits.length / B) :
    Option.map (fun s => (s.f k).amp) (psk_segs cfg bits B)[i]? = some 1 ∧
    |RSample.interp
      ((Option.map (fun s => s.f k) (psk_segs cfg bits B)[i]?).getD zeroR)| ≤
        1 := by
  rw [psk_segs_getElem cfg bits B i hi]
  exact ⟨rfl, interp_abs_le_one _ rfl⟩

/-- C4 witness: the amended statement at the default configuration,
`psk([1,1], B=2)`, symbol 0, sample 3. -/
theorem psk_unit_amplitude_amended_witness :
    0 < [true, true].length / 2 ∧
    Option.map (fun s => (s.f 3).amp)
      (psk_segs defaultMod [true, true] 2)[0]? = some 1 :=
  ⟨by decide,
    (psk_unit_amplitude_amended defaultMod [true, true] 2 0 3 (by decide)).1⟩

end ModulationDemo

namespace ModulationDemo

/-- C5: every FSK symbol with packed value `v` is synthesized at frequency
`(carrier_freq_hz - span/2) + v * span / (2^B - 1)`; in particular `v = 0`
gives `carrier_freq_hz - span/2` and `v = 2^B - 1` gives
`carrier_freq_hz + span/2` exactly. -/
theorem fsk_frequency_mapping (cfg : DigitalModulation) (bits : List Bool)
    (span : ℚ) (B i k : ℕ) (hB : 1 ≤ B) ( _hspan : 0 < span)
    (hi : i < bits.length / B) :
    Option.map (fun s => (s.f k).freq) (fsk_segs cfg bits span B)[i]? =
      some ((cfg.carrier_freq_hz - span / 2) +
        ((packbitsLittle0 ((bits.drop (i * B)).take B) : ℕ) : ℚ) * span /
          ((2 : ℚ) ^ B - 1)) ∧
    fskFreq cfg span B 0 = cfg.carrier_freq_hz - span / 2 ∧
    fskFreq cfg span B (2 ^ B - 1) = cfg.carrier_freq_hz + span / 2 := by
  refine ⟨?_, ?_, ?_⟩
  · rw [fsk_segs_getElem cfg bits span B i hi]; rfl
  · simp [fskFreq]
  · have h1 : (1 : ℕ) ≤ 2 ^ B := Nat.one_le_two_pow
    have h3 : (1 : ℚ) < 2 ^ B := one_lt_pow₀ one_lt_two (by omega)
    have h2 : ((2 : ℚ) ^ B - 1) ≠ 0 := sub_ne_zero.mpr (ne_of_gt h3)
    unfold fskFreq
    rw [Nat.cast_sub h1]
    push_cast
    rw [mul_comm ((2 : ℚ) ^ B - 1) span, mul_div_assoc, div_self h2, mul_one]
    ring

/-- C5 witness: the frequency mapping at the default configuration,
`fsk([1,0], span=1000, B=1)`, symbol 0. -/
theorem fsk_frequency_mapping_witness :
    (1 ≤ 1 ∧ (0 : ℚ) < 1000 ∧ 0 < [true, false].length / 1) ∧
    fskFreq defaultMod 1000 1 (2 ^ 1 - 1) =
      defaultMod.carrier_freq_hz + 1000 / 2 :=
  ⟨⟨le_refl 1, by norm_num, by decide⟩,
    (fsk_frequency_mapping defaultMod [true, false] 1000 1 0 0 (le_refl 1)
      (by norm_num) (by decide)).2.2⟩

/-- C6 counterexample: the valid call `ask([1]*8, B=8)` packs the all-ones
symbol to `v = 255`; the `uint8` increment `255 + 1` wraps to 0, so the
symbol is synthesized with amplitude `0/256 = 0`, refuting both the
`(v+1)/2^B` formula (which gives 1) and strict positivity. -/
theorem ask_wrap_cex :
    (get_ask_mod defaultMod
      [true, true, true, true, true, true, true, true] 8).toOption.isSome =
        true ∧
    packbitsLittle0 [true, true, true, true, true, true, true, true] =
      255 ∧
    askAmp 8 255 = 0 ∧
    Option.map (fun s => (s.f 0).amp)
      (ask_segs defaultMod
        [true, true, true, true, true, true, true, true] 8)[0]? = some 0 ∧
    askAmp 8 255 ≠ ((255 : ℚ) + 1) / 2 ^ 8 ∧
    ¬ 0 < askAmp 8 255 :=
  of_decide_eq_true (by with_unfolding_all rfl)

/-- C6 (amended): every ASK symbol with packed value `v` is synthesized
with amplitude `((v+1) mod 256)/2^B` (the `+1` is `uint8` arithmetic).
For `v < 255` — hence for every symbol whenever `B ≤ 7` — this equals
`(v+1)/2^B`, strictly positive and strictly increasing in `v`, with
minimum `1/2^B` at `v = 0` and maximum `1` at `v = 2^B - 1`; for `B = 8`
the all-ones symbol `v = 255` wraps and gets amplitude 0. -/
theorem ask_amplitude_mapping_amended (cfg : DigitalModulation)
    (bits : List Bool) (B i k v w : ℕ) (hi : i < bits.length / B)
    (hvw : v < w) (hw : w < 255) :
    Option.map (fun s => (s.f k).amp) (ask_segs cfg bits B)[i]? =
      some (askAmp B (packbitsLittle0 ((bits.drop (i * B)).take B))) ∧
    askAmp B v = ((v : ℚ) + 1) / 2 ^ B ∧
    0 < askAmp B v ∧
    askAmp B v < askAmp B w ∧
    askAmp B 0 = 1 / 2 ^ B ∧
    (B ≤ 7 → askAmp B (2 ^ B - 1) = 1) ∧
    askAmp 8 (2 ^ 8 - 1) = 0 := by
  have hpow : (0 : ℚ) < 2 ^ B := by positivity
  have hmod : ∀ u : ℕ, u < 255 → (u + 1) % 256 = u + 1 := fun u hu =>
    Nat.mod_eq_of_lt (by omega)
  have hv : v < 255 := lt_trans hvw hw
  refine ⟨?_, ?_, ?_, ?_, ?_, ?_, ?_⟩
  · rw [ask_segs_getElem cfg bits B i hi]; rfl
  · unfold askAmp
    rw [hmod v hv]
    push_cast
    ring
  · unfold askAmp
    rw [hmod v hv]
    positivity
  · unfold askAmp
    rw [hmod v hv, hmod w hw]
    refine (div_lt_div_iff_of_pos_right hpow).mpr ?_
    have : (v : ℚ) < w := by exact_mod_cast hvw
    push_cast
    linarith
  · unfold askAmp; norm_num
  · intro hB
    unfold askAmp
    have h1 : (1 : ℕ) ≤ 2 ^ B := Nat.one_le_two_pow
    have h2 : 2 ^ B - 1 + 1 = 2 ^ B := Nat.sub_add_cancel h1
    have h3 : 2 ^ B < 256 := by
      calc 2 ^ B ≤ 2 ^ 7 := Nat.pow_le_pow_right (by omega) hB
      _ < 256 := by omega
    rw [h2, Nat.mod_eq_of_lt h3]
    push_cast
    rw [div_self (ne_of_gt hpow)]
  · unfold askAmp; norm_num

/-- C6 witness: the amended amplitude facts at the default configuration,
`ask([1,1], B=2)`, symbol 0, `v = 1 < w = 2 < 255`. -/
theorem ask_amplitude_mapping_amended_witness :
    (0 < [true, true].length / 2 ∧ 1 < 2 ∧ 2 < 255) ∧
    askAmp 2 1 < askAmp 2 2 ∧ ((2 : ℕ) ≤ 7 → askAmp 2 (2 ^ 2 - 1) = 1) :=
  ⟨⟨by decide, by decide, by decide⟩,
    (ask_amplitude_mapping_amended defaultMod [true, true] 2 0 0 1 2
      (by decide) (by decide) (by decide)).2.2.2.1,
    (ask_amplitude_mapping_amended defaultMod [true, true] 2 0 0 1 2
      (by decide) (by decide) (by decide)).2.2.2.2.2.1⟩

/-- C7: for every valid call, carrier, ASK, PSK, FSK and QAM waveforms all
have the fixed per-instance length `N = num_sample_points`, and for a
constructed instance `N = ceil(duration / sample_period)`. -/
theorem waveform_lengths (cfg : DigitalModulation) (bits : List Bool)
    (span : ℚ) (B : ℕ) (c d : ℚ) (h0 : bits.length ≠ 0)
    (hB : bits.length % B = 0) (hq : bits.length % qamChunk B = 0) :
    (get_carrier cfg).length = cfg.num_sample_points ∧
    Except.map List.length (get_ask_mod cfg bits B) =
      .ok cfg.num_sample_points ∧
    Except.map List.length (get_psk_mod cfg bits B) =
      .ok cfg.num_sample_points ∧
    Except.map List.length (get_fsk_mod cfg bits span B) =
      .ok cfg.num_sample_points ∧
    Except.map List.length (get_qam_mod cfg bits B) =
      .ok cfg.num_sample_points ∧
    (DigitalModulation.init c d).num_sample_points =
      (⌈d / (DigitalModulation.init c d).sample_period_s⌉).toNat := by
  refine ⟨?_, ?_, ?_, ?_, ?_, rfl⟩
  · unfold get_carrier
    rw [List.length_map, List.length_range]
  · unfold get_ask_mod
    rw [if_neg h0, if_neg (by simp [hB])]
    simp [Except.map]
  · unfold get_psk_mod
    rw [if_neg h0, if_neg (by simp [hB])]
    simp [Except.map]
  · unfold get_fsk_mod
    rw [if_neg h0, if_neg (by simp [hB])]
    simp [Except.map]
  · unfold get_qam_mod
    rw [if_neg h0, if_neg (by simp [hq])]
    simp [Except.map]

/-- C7 witness: all five waveform lengths agree at the default
configuration with `bits = [1,0]`, `B = 2`. -/
theorem waveform_lengths_witness :
    ([true, false].length ≠ 0 ∧ [true, false].length % 2 = 0 ∧
      [true, false].length % qamChunk 2 = 0) ∧
    (get_carrier defaultMod).length = defaultMod.num_sample_points ∧
    Except.map List.length (get_qam_mod defaultMod [true, false] 2) =
      .ok defaultMod.num_sample_points :=
  ⟨⟨by decide, by decide, by decide⟩,
    (waveform_lengths defaultMod [true, false] 1000 2 1000000 (8 / 1000000)
      (by decide) (by decide) (by decide)).1,
    (waveform_lengths defaultMod [true, false] 1000 2 1000000 (8 / 1000000)
      (by decide) (by decide) (by decide)).2.2.2.2.1⟩

/-- C8: a bit-vector length that is not a multiple of the chunk size
(`B` for ASK/PSK/FSK, `2*(B//2)` for QAM) makes the call fail with the
reshape `ValueError` at the grouping step: no waveform is produced. -/
theorem invalid_length_valueError (cfg : DigitalModulation)
    (bits : List Bool) (span : ℚ) (B : ℕ) (h0 : bits.length ≠ 0)
    (hB : bits.length % B ≠ 0) :
    get_ask_mod cfg bits B = .error .valueError ∧
    get_psk_mod cfg bits B = .error .valueError ∧
    get_fsk_mod cfg bits span B = .error .valueError ∧
    (bits.length % qamChunk B ≠ 0 →
      get_qam_mod cfg bits B = .error .valueError) := by
  refine ⟨?_, ?_, ?_, fun hq => ?_⟩
  · simp [get_ask_mod, h0, hB]
  · simp [get_psk_mod, h0, hB]
  · simp [get_fsk_mod, h0, hB]
  · simp [get_qam_mod, h0, hq]

/-- C8 witness: `ask([0,1,1], B=2)` (and the other three calls) fail with
the `ValueError` at the default configuration. -/
theorem invalid_length_valueError_witness :
    ([false, true, true].length ≠ 0 ∧ [false, true, true].length % 2 ≠ 0 ∧
      [false, true, true].length % qamChunk 2 ≠ 0) ∧
    get_ask_mod defaultMod [false, true, true] 2 = .error .valueError ∧
    get_qam_mod defaultMod [false, true, true] 2 = .error .valueError :=
  ⟨⟨by decide, by decide, by decide⟩,
    (invalid_length_valueError defaultMod [false, true, true] 1000 2
      (by decide) (by decide)).1,
    (invalid_length_valueError defaultMod [false, true, true] 1000 2
      (by decide) (by decide)).2.2.2 (by decide)⟩

/-- C9: each constellation table (M ∈ {4,8,16}) is injective on its M
defined keys — the lists of looked-up `(I,Q)` pairs have no duplicates, so
inverse lookup recovers the key — and the entries equal the documented
tables (the M=4 and M=8 tables are spelled out; the M=16 table is the 16
combinations of `I,Q ∈ {±1,±3}` in the fixed order). -/
theorem qam_table_bijective :
    ((List.range 4).map (fun v => get_qam_modulation_mapping v 4)).Nodup ∧
    ((List.range 8).map (fun v => get_qam_modulation_mapping v 8)).Nodup ∧
    ((List.range 16).map (fun v => get_qam_modulation_mapping v 16)).Nodup ∧
    get_qam_modulation_mapping 0 4 = (1, 1) ∧
    get_qam_modulation_mapping 1 4 = (1, -1) ∧
    get_qam_modulation_mapping 2 4 = (-1, 1) ∧
    get_qam_modulation_mapping 3 4 = (-1, -1) ∧
    (List.range 8).map (fun v => get_qam_modulation_mapping v 8) =
      [(3, 0), (1, 1), (-1, 1), (0, 3), (1, -1), (0, -3), (-3, 0),
        (-1, -1)] ∧
    (List.range 16).map (fun v => get_qam_modulation_mapping v 16) =
      [(1, 1), (3, 1), (1, 3), (3, 3), (1, -1), (3, -1), (1, -3), (3, -3),
        (-1, 1), (-3, 1), (-1, 3), (-3, 3), (-1, -1), (-3, -1), (-1, -3),
        (-3, -3)] := by
  decide

/-- C10: the empty bit vector satisfies the divisibility precondition
(`0 % B = 0`) yet every modulation call fails with the
`ZeroDivisionError` raised while computing the per-symbol cycle count. -/
theorem empty_bits_zeroDivision (cfg : DigitalModulation) (span : ℚ)
    (B : ℕ) :
    get_ask_mod cfg [] B = .error .zeroDivision ∧
    get_psk_mod cfg [] B = .error .zeroDivision ∧
    get_fsk_mod cfg [] span B = .error .zeroDivision ∧
    get_qam_mod cfg [] B = .error .zeroDivision ∧
    ([] : List Bool).length % B = 0 :=
  ⟨rfl, rfl, rfl, rfl, Nat.zero_mod B⟩

end ModulationDemo
